import Mathlib

/-!
Verification development for the realtime-collab-kit repository: a shallow
embedding of the relay server (src/server.ts), the memory and redis backend
adapters (adapters/memory.ts, adapters/redis.ts) and the client session
(client.ts), together with theorems settling the specification claims.

JavaScript `Map` objects are modelled as association lists with the same
observable behaviour: `set` on an existing key replaces the value in place
(keeping insertion order), `set` on a fresh key appends, `delete` removes the
entry, and iteration (`values()`, `forEach`) follows insertion order.
-/

set_option autoImplicit false

universe u v

section MapModel

variable {κ : Type u} {α : Type v} [DecidableEq κ]

/-- Lookup in a JS-Map-style association list (`map.get(k)`). -/
def mget : List (κ × α) → κ → Option α
  | [], _ => none
  | p :: rest, k => if p.1 = k then some p.2 else mget rest k

/-- Insert or replace in a JS-Map-style association list (`map.set(k, v)`):
replace the first entry with key `k` in place, else append. -/
def mset : List (κ × α) → κ → α → List (κ × α)
  | [], k, v => [(k, v)]
  | p :: rest, k, v => if p.1 = k then (k, v) :: rest else p :: mset rest k v

/-- Delete from a JS-Map-style association list (`map.delete(k)`):
remove the first entry with key `k`. -/
def mdel : List (κ × α) → κ → List (κ × α)
  | [], _ => []
  | p :: rest, k => if p.1 = k then rest else p :: mdel rest k

/-- Well-formedness of a map model: keys occur at most once. -/
abbrev keysNodup (m : List (κ × α)) : Prop := (m.map Prod.fst).Nodup

end MapModel

/-!
Data model, from src/types.ts. Coordinates are TS numbers used as plain
values; they are modelled as integers. The free-form metadata record is
treated as an opaque blob: an optional string stands for the whole
JSON-compatible metadata object (claims never inspect its fields).
-/

/-- Cursor position, from the `position: \x7b x, y \x7d` wire field. -/
structure Pos where
  x : Int
  y : Int
deriving DecidableEq, Repr

/-- User record, from the `User` interface in src/types.ts. -/
structure User where
  id : String
  roomId : String
  cursor : Option Pos
  typing : Bool
  metadata : Option String
deriving DecidableEq, Repr

/-- The `Partial User` update passed to `updateUser`: the server only ever
sends a cursor field, a typing field, or neither; an outer `none` means the
field is absent from the update object. -/
structure UserUpdate where
  cursor : Option (Option Pos) := none
  typing : Option Bool := none
deriving DecidableEq, Repr

/-- Field merge of `Object.assign(user, updates)` for the two updatable
fields: a field present in the update replaces the user's field. -/
def applyUpdate (u : User) (upd : UserUpdate) : User :=
  { u with
    cursor := upd.cursor.getD u.cursor
    typing := upd.typing.getD u.typing }

/-- Server-to-client message, from the `ServerMessage` interface. The wire
payload never carries the exclusion marker; the marker travels in
`TaggedMessage` below. -/
inductive ServerMessage where
  | presence (users : List User)
  | update (user : User)
  | custom (event : String) (user : User)
  | error (err : String)
  | ping
  | pong
deriving DecidableEq, Repr

/-- The message value handed to `Adapter.broadcast`: the `ServerMessage`
possibly tagged with the internal `_excludeUserId` marker that
`broadcastToRoom` attaches. -/
structure TaggedMessage where
  msg : ServerMessage
  excludeUserId : Option String
deriving DecidableEq, Repr

/-!
MemoryAdapter, from src/adapters/memory.ts. The `rooms` field
(`Map roomId (Map userId User)`) is the whole membership state; the
subscriber set is held by the server model below (the server registers at
most one callback per room, see `subscribeToRoom`). `broadcastRun` models
the delivery loop of `MemoryAdapter.broadcast` separately.
-/

namespace MemoryAdapter

/-- Membership state: `rooms: Map(roomId, Map(userId, User))`. -/
abbrev Rooms : Type := List (String × List (String × User))

/-- The room map under a roomId, empty when the room is absent. -/
def getRoom (rooms : Rooms) (roomId : String) : List (String × User) :=
  (mget rooms roomId).getD []

/-- First statement of MemoryAdapter.joinRoom: create the room map when it
is absent (`if (!this.rooms.has(roomId)) this.rooms.set(roomId, new Map())`). -/
def ensureRoom (rooms : Rooms) (roomId : String) : Rooms :=
  if (mget rooms roomId).isSome then rooms else mset rooms roomId []

/-- MemoryAdapter.joinRoom: create the room map if absent, then insert a
fresh User only when the userId is not yet present. -/
def joinRoom (rooms : Rooms) (roomId userId : String) (metadata : Option String) : Rooms :=
  if (mget (getRoom (ensureRoom rooms roomId) roomId) userId).isSome then
    ensureRoom rooms roomId
  else
    mset (ensureRoom rooms roomId) roomId
      (mset (getRoom (ensureRoom rooms roomId) roomId) userId
        ⟨userId, roomId, none, false, metadata⟩)

/-- MemoryAdapter.leaveRoom: delete the user; delete the room when it
becomes empty. -/
def leaveRoom (rooms : Rooms) (roomId userId : String) : Rooms :=
  match mget rooms roomId with
  | none => rooms
  | some room =>
    if (mdel room userId).isEmpty then mdel rooms roomId else mset rooms roomId (mdel room userId)

/-- MemoryAdapter.updateUser: merge the update into the existing user;
leave everything untouched when the room or the user is absent. -/
def updateUser (rooms : Rooms) (roomId userId : String) (upd : UserUpdate) : Rooms :=
  match mget rooms roomId with
  | none => rooms
  | some room =>
    match mget room userId with
    | none => rooms
    | some u => mset rooms roomId (mset room userId (applyUpdate u upd))

/-- MemoryAdapter.getUsers: `Array.from(room.values())`, or `[]` when the
room is absent. -/
def getUsers (rooms : Rooms) (roomId : String) : List User :=
  (getRoom rooms roomId).map Prod.snd

/-- Store lookup of one member (`this.rooms.get(roomId)?.get(userId)`:
an absent room and an absent user both answer nothing), used to phrase
membership the way the adapter itself checks it. -/
def lookupUser (rooms : Rooms) (roomId userId : String) : Option User :=
  mget (getRoom rooms roomId) userId

/-- Delivery loop of MemoryAdapter.broadcast, which is
`callbacks.forEach(callback => callback(message))` in the source: each
callback may throw. Under JavaScript semantics an exception thrown by a
callback propagates out of `forEach`, so iteration stops at the first
throwing callback. The result is the number of callbacks that were invoked
together with the escaping exception, if any. -/
def broadcastRun (callbacks : List (TaggedMessage → Except String Unit))
    (message : TaggedMessage) : Nat × Option String :=
  match callbacks with
  | [] => (0, none)
  | cb :: rest =>
    match cb message with
    | .ok _ =>
      let r := broadcastRun rest message
      (r.1 + 1, r.2)
    | .error e => (1, some e)

end MemoryAdapter

/-!
RedisAdapter, from src/adapters/redis.ts. Membership lives in redis under a
hash `room:rid:users` (field userId holds the JSON-serialized User) and a
set `room:rid:members`. JSON serialization round-trips User values
unchanged, so hash fields are modelled as User values directly.
-/

namespace RedisAdapter

/-- The redis keys this adapter touches: one users hash and one members set
per room, both keyed by roomId. -/
@[ext]
structure RState where
  users : List (String × List (String × User))
  members : List (String × List String)
deriving DecidableEq, Repr

/-- SADD on the member set: append when not yet present. -/
def saddMember (l : List String) (x : String) : List String :=
  if l.contains x then l else l ++ [x]

/-- RedisAdapter.joinRoom: unconditional HSET of a fresh User plus SADD of
the member id. -/
def joinRoom (s : RState) (roomId userId : String) (metadata : Option String) : RState :=
  let u : User := ⟨userId, roomId, none, false, metadata⟩
  { users := mset s.users roomId (mset ((mget s.users roomId).getD []) userId u)
    members := mset s.members roomId (saddMember ((mget s.members roomId).getD []) userId) }

/-- RedisAdapter.updateUser: HGET; when the field is absent do nothing,
else merge and HSET the result back. -/
def updateUser (s : RState) (roomId userId : String) (upd : UserUpdate) : RState :=
  match mget ((mget s.users roomId).getD []) userId with
  | none => s
  | some u =>
    let room' := mset ((mget s.users roomId).getD []) userId (applyUpdate u upd)
    { s with users := mset s.users roomId room' }

/-- Store lookup of one member (`HGET room:rid:users userId`). -/
def lookupUser (s : RState) (roomId userId : String) : Option User :=
  mget ((mget s.users roomId).getD []) userId

end RedisAdapter

/-!
Relay server, from src/server.ts (`createCollabServer`). The model keeps the
three mutable pieces of server state: the adapter's membership map, the
`roomSubscriptions` map, and the `connections` map. The per-room fan-out
callback registered with the adapter is a closure fully determined by its
roomId (it reads the live `connections` map), and the guard in
`subscribeToRoom` ensures at most one callback per room is ever registered
with the adapter, so the pair roomSubscriptions/adapter-subscribers is
modelled as a single list of subscribed roomIds. Identities minted with
`crypto.randomUUID()` are nondeterministic inputs; the model takes the
minted id as an explicit field of the join event.
-/

/-- Per-connection binding, from the `ClientConnection` interface; `isOpen`
is the `readyState === WebSocket.OPEN` test of the fan-out loop. -/
structure Conn where
  userId : String
  roomId : String
  metadata : Option String
  isOpen : Bool
deriving DecidableEq, Repr

/-- Whole mutable state of one relay server process (memory adapter). -/
structure ServerState where
  rooms : MemoryAdapter.Rooms
  subs : List String
  conns : List (Nat × Conn)
deriving DecidableEq, Repr

/-- Result of the `verifyToken` auth callback, from src/types.ts. -/
structure AuthResult where
  userId : String
  metadata : Option String
  error : Option String

/-- Server configuration: only the auth callback matters to the model. -/
structure ServerConfig where
  auth : Option (String → AuthResult)

/-- Client-to-server message, from the `ClientMessage` interface. The
`freshId` field of `join` is the identity `crypto.randomUUID()` would mint
if the anonymous path runs (a nondeterministic input of the real server). -/
inductive ClientMessage where
  | join (roomId : Option String) (token : Option String) (metadata : Option String)
      (freshId : String)
  | leave
  | cursor (position : Pos)
  | typing (isTyping : Bool)
  | custom (event : String)
  | ping
  | pong
deriving DecidableEq, Repr

/-- Observable result of handling one event: the successor state, the wire
messages delivered to local sockets (in delivery order), and the
`broadcastToRoom` invocations handed to the adapter. -/
structure StepOut where
  state : ServerState
  sends : List (Nat × ServerMessage)
  broadcasts : List (String × TaggedMessage)
deriving DecidableEq, Repr

/-- JavaScript truthiness of an optional string: `undefined` and the empty
string are falsy (`data.roomId || 'default'`, `if (!data.token)`). -/
def jsTruthy : Option String → Option String
  | some s => if s = "" then none else some s
  | none => none

/-- The fan-out callback that `subscribeToRoom` registers for `roomId`: drop
the `_excludeUserId` marker, then send the stripped payload to every open
connection currently bound to the room whose identity is not excluded. -/
def subscriberCallback (conns : List (Nat × Conn)) (roomId : String)
    (tm : TaggedMessage) : List (Nat × ServerMessage) :=
  let roomConnections := conns.filter (fun c => c.2.roomId == roomId)
  let recipients := roomConnections.filter (fun c =>
    (match tm.excludeUserId with
     | some e => c.2.userId != e
     | none => true) && c.2.isOpen)
  recipients.map (fun c => (c.1, tm.msg))

/-- server.ts subscribeToRoom: no-op when the room already has a
subscription, else register the callback (here: remember the roomId). -/
def subscribeToRoom (subs : List String) (roomId : String) : List String :=
  if subs.contains roomId then subs else subs ++ [roomId]

/-- server.ts unsubscribeFromRoom: deregister the room's callback when one
is registered. -/
def unsubscribeFromRoom (subs : List String) (roomId : String) : List String :=
  subs.erase roomId

/-- server.ts broadcastToRoom followed by MemoryAdapter.broadcast: tag the
message with the optional exclusion marker, then invoke the room's
registered callback, if any. Returns the adapter-level broadcast together
with the local deliveries it causes. -/
def broadcastToRoom (st : ServerState) (roomId : String) (message : ServerMessage)
    (excludeUserId : Option String) : List (String × TaggedMessage) × List (Nat × ServerMessage) :=
  let tm : TaggedMessage := ⟨message, excludeUserId⟩
  let sends := if st.subs.contains roomId then subscriberCallback st.conns roomId tm else []
  ([(roomId, tm)], sends)

/-- Common tail of both initial-join paths: bind the connection, join the
room, subscribe, broadcast presence. -/
def joinAs (st : ServerState) (ws : Nat) (roomId userId : String)
    (metadata : Option String) : StepOut :=
  let conn : Conn := ⟨userId, roomId, metadata, true⟩
  let st1 : ServerState := { st with conns := mset st.conns ws conn }
  let st2 : ServerState := { st1 with rooms := MemoryAdapter.joinRoom st1.rooms roomId userId metadata }
  let st3 : ServerState := { st2 with subs := subscribeToRoom st2.subs roomId }
  let presence := ServerMessage.presence (MemoryAdapter.getUsers st3.rooms roomId)
  let out := broadcastToRoom st3 roomId presence none
  ⟨st3, out.2, out.1⟩

/-- Initial-join branch of the join handler (also reached by a repeated
join that does not switch rooms): anonymous identity when no auth callback
is configured, else token verification. -/
def handleInitialJoin (cfg : ServerConfig) (st : ServerState) (ws : Nat)
    (roomIdOpt tokenOpt metaOpt : Option String) (freshId : String) : StepOut :=
  match cfg.auth with
  | none =>
    joinAs st ws ((jsTruthy roomIdOpt).getD "default") freshId metaOpt
  | some verifyToken =>
    match jsTruthy tokenOpt with
    | none => ⟨st, [(ws, .error "Authentication required. Token missing.")], []⟩
    | some token =>
      let authResult := verifyToken token
      match jsTruthy authResult.error with
      | some e => ⟨st, [(ws, .error e)], []⟩
      | none =>
        joinAs st ws ((jsTruthy roomIdOpt).getD "default") authResult.userId
          (authResult.metadata.orElse (fun _ => metaOpt))

/-- Room-switch branch of the join handler: leave and unsubscribe the old
room, rebind, join and subscribe the new room, broadcast presence there. -/
def handleRoomSwitch (st : ServerState) (ws : Nat) (conn : Conn) (newRoomId : String) : StepOut :=
  let st1 : ServerState := { st with rooms := MemoryAdapter.leaveRoom st.rooms conn.roomId conn.userId }
  let st2 : ServerState := { st1 with subs := unsubscribeFromRoom st1.subs conn.roomId }
  let conn' : Conn := { conn with roomId := newRoomId }
  let st3 : ServerState := { st2 with conns := mset st2.conns ws conn' }
  let st4 : ServerState := { st3 with rooms := MemoryAdapter.joinRoom st3.rooms newRoomId conn.userId conn.metadata }
  let st5 : ServerState := { st4 with subs := subscribeToRoom st4.subs newRoomId }
  let presence := ServerMessage.presence (MemoryAdapter.getUsers st5.rooms newRoomId)
  let out := broadcastToRoom st5 newRoomId presence none
  ⟨st5, out.2, out.1⟩

/-- Handlers for the non-join message types, reached only with a bound
connection (the not-authenticated guard sits before them). -/
def handleBound (st : ServerState) (ws : Nat) (conn : Conn) : ClientMessage → StepOut
  | .leave =>
    let st1 : ServerState := { st with rooms := MemoryAdapter.leaveRoom st.rooms conn.roomId conn.userId }
    let st2 : ServerState := { st1 with subs := unsubscribeFromRoom st1.subs conn.roomId }
    let presence := ServerMessage.presence (MemoryAdapter.getUsers st2.rooms conn.roomId)
    let out := broadcastToRoom st2 conn.roomId presence none
    ⟨st2, out.2, out.1⟩
  | .cursor position =>
    let st1 : ServerState := { st with rooms := MemoryAdapter.updateUser st.rooms conn.roomId conn.userId ⟨some (some position), none⟩ }
    match (MemoryAdapter.getUsers st1.rooms conn.roomId).find? (fun u => u.id == conn.userId) with
    | some u =>
      let out := broadcastToRoom st1 conn.roomId (.update u) (some conn.userId)
      ⟨st1, out.2, out.1⟩
    | none => ⟨st1, [], []⟩
  | .typing isTyping =>
    let st1 : ServerState := { st with rooms := MemoryAdapter.updateUser st.rooms conn.roomId conn.userId ⟨none, some isTyping⟩ }
    match (MemoryAdapter.getUsers st1.rooms conn.roomId).find? (fun u => u.id == conn.userId) with
    | some u =>
      let out := broadcastToRoom st1 conn.roomId (.update u) (some conn.userId)
      ⟨st1, out.2, out.1⟩
    | none => ⟨st1, [], []⟩
  | .ping => ⟨st, [(ws, .pong)], []⟩
  | .pong => ⟨st, [], []⟩
  | .custom event =>
    if event = "" then ⟨st, [], []⟩
    else
      let found := (MemoryAdapter.getUsers st.rooms conn.roomId).find? (fun u => u.id == conn.userId)
      let user := found.getD ⟨conn.userId, conn.roomId, none, false, conn.metadata⟩
      let out := broadcastToRoom st conn.roomId (.custom event user) (some conn.userId)
      ⟨st, out.2, out.1⟩
  | .join _ _ _ _ => ⟨st, [], []⟩

/-- One inbound message on one socket, following the order of checks in the
`ws.on('message')` handler: join first (with the room-switch test), then
the not-authenticated guard, then the per-type handlers. -/
def serverStep (cfg : ServerConfig) (st : ServerState) (ws : Nat) : ClientMessage → StepOut
  | .join roomIdOpt tokenOpt metaOpt freshId =>
    match mget st.conns ws, jsTruthy roomIdOpt with
    | some conn, some rid =>
      if rid ≠ conn.roomId then handleRoomSwitch st ws conn rid
      else handleInitialJoin cfg st ws roomIdOpt tokenOpt metaOpt freshId
    | some _, none => handleInitialJoin cfg st ws roomIdOpt tokenOpt metaOpt freshId
    | none, _ => handleInitialJoin cfg st ws roomIdOpt tokenOpt metaOpt freshId
  | m =>
    match mget st.conns ws with
    | none => ⟨st, [(ws, .error "Not authenticated. Send join message first.")], []⟩
    | some conn => handleBound st ws conn m

/-- The `ws.on('close')` handler: leave, unsubscribe, broadcast presence,
drop the connection binding. -/
def serverClose (st : ServerState) (ws : Nat) : StepOut :=
  match mget st.conns ws with
  | none => ⟨st, [], []⟩
  | some conn =>
    let st1 : ServerState := { st with rooms := MemoryAdapter.leaveRoom st.rooms conn.roomId conn.userId }
    let st2 : ServerState := { st1 with subs := unsubscribeFromRoom st1.subs conn.roomId }
    let presence := ServerMessage.presence (MemoryAdapter.getUsers st2.rooms conn.roomId)
    let out := broadcastToRoom st2 conn.roomId presence none
    let st3 : ServerState := { st2 with conns := mdel st2.conns ws }
    ⟨st3, out.2, out.1⟩

/-- An external event driving the server: an inbound message or a transport
close on a socket. -/
inductive ServerEvent where
  | message (ws : Nat) (m : ClientMessage)
  | closed (ws : Nat)
deriving DecidableEq, Repr

/-- Run a sequence of events, keeping only the evolving state. -/
def runServer (cfg : ServerConfig) : ServerState → List ServerEvent → ServerState
  | st, [] => st
  | st, e :: rest =>
    let st' := match e with
      | .message ws m => (serverStep cfg st ws m).state
      | .closed ws => (serverClose st ws).state
    runServer cfg st' rest

/-- The empty starting state of a freshly created server. -/
def initialState : ServerState := ⟨[], [], []⟩

/-- A server configured without an auth callback. -/
def noAuthConfig : ServerConfig := ⟨none⟩

/-!
Client session, from src/client.ts (`createCollabClient`). Two pieces are
claim-relevant and are modelled: the reconnect backoff arithmetic of the
`ws.onclose` handler, and the cursor throttle. Times are millisecond
counts as returned by `Date.now()`; `lastCursorUpdate` starts at 0 exactly
as in the source, so the first call in a session (whose wall-clock time is
far larger than `throttleCursor`) takes the immediate-send branch.
-/

/-- Reconnect configuration with its normalized defaults, from the
`reconnect` normalization block of createCollabClient. -/
structure ReconnectConfig where
  enabled : Bool := true
  maxRetries : Nat := 10
  initialDelay : Nat := 1000
  maxDelay : Nat := 30000
  backoffFactor : Nat := 2
deriving DecidableEq, Repr

/-- The delay the onclose handler computes:
`Math.min(initialDelay * Math.pow(backoffFactor, reconnectAttempts), maxDelay)`. -/
def reconnectDelay (cfg : ReconnectConfig) (reconnectAttempts : Nat) : Nat :=
  min (cfg.initialDelay * cfg.backoffFactor ^ reconnectAttempts) cfg.maxDelay

/-- The reconnect decision of the onclose handler for a non-caller-initiated
close: when reconnection applies and attempts remain, the scheduled delay is
computed from the current attempt counter, and the counter is incremented
afterwards. Returns the scheduled delay and the new counter, or `none` when
no reconnect is scheduled. -/
def onCloseReconnect (cfg : ReconnectConfig) (shouldReconnect : Bool)
    (reconnectAttempts : Nat) : Option (Nat × Nat) :=
  if shouldReconnect = true ∧ cfg.enabled = true ∧ reconnectAttempts < cfg.maxRetries then
    some (reconnectDelay cfg reconnectAttempts, reconnectAttempts + 1)
  else none

/-- Delays produced by `n` successive failing connection attempts starting
from a given attempt counter (each close schedules a reconnect which again
closes). -/
def closeDelays (cfg : ReconnectConfig) : Nat → Nat → List Nat
  | 0, _ => []
  | n + 1, reconnectAttempts =>
    match onCloseReconnect cfg true reconnectAttempts with
    | some (d, a) => d :: closeDelays cfg n a
    | none => []

/-- Throttle-relevant state of the client session: `lastCursorUpdate`,
`pendingCursorPosition`, the outstanding flush timer (absolute fire time),
and the cursor messages sent so far (send time and position). -/
structure ThrottleState where
  lastCursorUpdate : Nat := 0
  pending : Option Pos := none
  timerAt : Option Nat := none
  sent : List (Nat × Pos) := []
deriving DecidableEq, Repr

/-- client.ts flushCursorUpdate: send the pending position, if any, and
clear it. It does not touch `lastCursorUpdate`. -/
def flushCursorUpdate (now : Nat) (s : ThrottleState) : ThrottleState :=
  match s.pending with
  | some p => { s with pending := none, sent := s.sent ++ [(now, p)] }
  | none => s

/-- The `cursor(position)` entry point: store the freshest position; send
immediately when at least `throttleCursor` ms passed since the last
immediate send, else (re)schedule the flush timer for the remaining wait
(`setTimeout(flushCursorUpdate, throttleCursor - (now - lastCursorUpdate))`,
replacing any earlier timer). -/
def cursorCall (throttleCursor : Nat) (s : ThrottleState) (now : Nat) (p : Pos) : ThrottleState :=
  let s1 : ThrottleState := { s with pending := some p }
  if throttleCursor ≤ now - s1.lastCursorUpdate then
    let s2 := flushCursorUpdate now s1
    { s2 with lastCursorUpdate := now }
  else
    { s1 with timerAt := some (now + (throttleCursor - (now - s1.lastCursorUpdate))) }

/-- Fire the outstanding flush timer when its scheduled time has been
reached. -/
def fireTimerIfDue (t : Nat) (s : ThrottleState) : ThrottleState :=
  match s.timerAt with
  | some tf => if tf ≤ t then { (flushCursorUpdate tf s) with timerAt := none } else s
  | none => s

/-- Run a chronological list of `cursor` calls: before each call any timer
due by then fires; after the last call an outstanding timer fires at its
scheduled time. -/
def runCursorCalls (throttleCursor : Nat) (s : ThrottleState) : List (Nat × Pos) → ThrottleState
  | [] =>
    (match s.timerAt with
     | some tf => { (flushCursorUpdate tf s) with timerAt := none }
     | none => s)
  | (t, p) :: rest =>
    runCursorCalls throttleCursor (cursorCall throttleCursor (fireTimerIfDue t s) t p) rest


/-!
Concrete scenarios used by the claim theorems.
-/

/-- Two anonymous connections join room r1, then the second one's transport
closes. -/
def twoJoinOneCloseTrace : List ServerEvent :=
  [ .message 1 (.join (some "r1") none none "alice"),
    .message 2 (.join (some "r1") none none "bob"),
    .closed 2 ]

/-- Server state with two anonymous connections bound to room r1. -/
def twoInRoomState : ServerState :=
  runServer noAuthConfig initialState
    [ .message 1 (.join (some "r1") none none "alice"),
      .message 2 (.join (some "r1") none none "bob") ]

/-- Server state with one anonymous connection bound to room r1. -/
def oneInRoomState : ServerState :=
  runServer noAuthConfig initialState
    [ .message 1 (.join (some "r1") none none "a") ]

/-- A membership map whose single user has already moved the cursor and
started typing. -/
def activeUserRooms : MemoryAdapter.Rooms :=
  [("r", [("u", ⟨"u", "r", some ⟨1, 1⟩, true, none⟩)])]

/-- The reconnect configuration with every field at its default. -/
def defaultReconnect : ReconnectConfig := {}

/-- A concrete state for fan-out witnesses: one subscribed room with two
open connections, the second bound to the identity e. -/
def fanOutState : ServerState :=
  ⟨[], ["r"], [(1, ⟨"u1", "r", none, true⟩), (2, ⟨"e", "r", none, true⟩)]⟩

/-- A state whose only connection is bound to a room with no membership
entry for it: the bound user is absent from the store. -/
def absentUserState : ServerState :=
  ⟨[], [], [(1, ⟨"u", "r", none, true⟩)]⟩

/-!
Helper lemmas about the embedded operations, shared by the claim theorems.
-/


section MapModel

variable {κ : Type u} {α : Type v} [DecidableEq κ]

theorem mget_mset_self (m : List (κ × α)) (k : κ) (v : α) :
    mget (mset m k v) k = some v := by
  induction m with
  | nil => simp [mget, mset]
  | cons p rest ih =>
    by_cases h : p.1 = k
    · simp [mget, mset, h]
    · simp [mget, mset, h, ih]

theorem mget_mset_ne (m : List (κ × α)) (k k' : κ) (v : α) (h : k' ≠ k) :
    mget (mset m k v) k' = mget m k' := by
  induction m with
  | nil =>
    simp only [mset, mget]
    rw [if_neg (Ne.symm h)]
  | cons p rest ih =>
    obtain ⟨a, b⟩ := p
    by_cases hp : a = k
    · simp only [mset, if_pos hp, mget]
      rw [if_neg (Ne.symm h), if_neg (fun he : a = k' => h ((hp.symm.trans he).symm))]
    · simp only [mset, if_neg hp, mget]
      by_cases hp' : a = k'
      · rw [if_pos hp', if_pos hp']
      · rw [if_neg hp', if_neg hp']
        exact ih

theorem mem_mset_self (m : List (κ × α)) (k : κ) (v : α) :
    (k, v) ∈ mset m k v := by
  induction m with
  | nil => simp [mset]
  | cons p rest ih =>
    by_cases h : p.1 = k
    · simp [mset, h]
    · simp only [mset, if_neg h, List.mem_cons]
      exact Or.inr ih

theorem mset_eq_of_mget (m : List (κ × α)) (k : κ) (v : α) (h : mget m k = some v) :
    mset m k v = m := by
  induction m with
  | nil => simp [mget] at h
  | cons p rest ih =>
    obtain ⟨a, b⟩ := p
    by_cases hp : a = k
    · simp only [mget, if_pos hp] at h
      have hv : b = v := Option.some.inj h
      simp only [mset, if_pos hp]
      rw [← hp, ← hv]
    · simp only [mget, if_neg hp] at h
      simp only [mset, if_neg hp]
      rw [ih h]

theorem mset_mset_self (m : List (κ × α)) (k : κ) (v w : α) :
    mset (mset m k v) k w = mset m k w := by
  induction m with
  | nil => simp [mset]
  | cons p rest ih =>
    by_cases h : p.1 = k
    · simp [mset, h]
    · simp [mset, h, ih]

theorem mdel_keys_ne (m : List (κ × α)) (k : κ) (h : keysNodup m) :
    ∀ p ∈ mdel m k, p.1 ≠ k := by
  induction m with
  | nil => intro p hp; simp [mdel] at hp
  | cons q rest ih =>
    simp only [keysNodup, List.map_cons, List.nodup_cons] at h
    intro p hp
    by_cases hq : q.1 = k
    · simp only [mdel, if_pos hq] at hp
      intro hpk
      exact h.1 (hq ▸ hpk ▸ List.mem_map_of_mem Prod.fst hp)
    · simp only [mdel, if_neg hq, List.mem_cons] at hp
      rcases hp with hp | hp
      · rw [hp]; exact hq
      · exact ih h.2 p hp

theorem mget_eq_none_of_not_mem_keys (m : List (κ × α)) (k : κ)
    (h : k ∉ m.map Prod.fst) : mget m k = none := by
  induction m with
  | nil => rfl
  | cons p rest ih =>
    obtain ⟨a, b⟩ := p
    simp only [List.map_cons, List.mem_cons, not_or] at h
    simp only [mget]
    rw [if_neg (fun he : a = k => h.1 he.symm)]
    exact ih h.2

theorem mget_mdel_self (m : List (κ × α)) (k : κ) (h : keysNodup m) :
    mget (mdel m k) k = none := by
  induction m with
  | nil => rfl
  | cons q rest ih =>
    obtain ⟨a, b⟩ := q
    simp only [keysNodup, List.map_cons, List.nodup_cons] at h
    by_cases hq : a = k
    · simp only [mdel, if_pos hq]
      exact mget_eq_none_of_not_mem_keys rest k (hq ▸ h.1)
    · simp only [mdel, if_neg hq, mget]
      exact ih h.2

theorem mget_mdel_ne (m : List (κ × α)) (k k' : κ) (h : k' ≠ k) :
    mget (mdel m k) k' = mget m k' := by
  induction m with
  | nil => rfl
  | cons p rest ih =>
    obtain ⟨a, b⟩ := p
    by_cases hp : a = k
    · simp only [mdel, if_pos hp, mget]
      rw [if_neg (fun he : a = k' => h ((hp.symm.trans he).symm))]
    · simp only [mdel, if_neg hp, mget]
      by_cases hp' : a = k'
      · rw [if_pos hp', if_pos hp']
      · rw [if_neg hp', if_neg hp']
        exact ih

omit [DecidableEq κ] in
theorem entry_eq_of_keysNodup {m : List (κ × α)} {p q : κ × α}
    (h : keysNodup m) (hp : p ∈ m) (hq : q ∈ m) (hk : p.1 = q.1) : p = q := by
  induction m with
  | nil => simp at hp
  | cons r rest ih =>
    simp only [keysNodup, List.map_cons, List.nodup_cons] at h
    simp only [List.mem_cons] at hp hq
    rcases hp with hp | hp <;> rcases hq with hq | hq
    · rw [hp, hq]
    · exfalso
      apply h.1
      rw [← hp, hk]
      exact List.mem_map_of_mem Prod.fst hq
    · exfalso
      apply h.1
      rw [← hq, ← hk]
      exact List.mem_map_of_mem Prod.fst hp
    · exact ih h.2 hp hq

end MapModel

theorem jsTruthy_some_ne (s : String) (h : s ≠ "") : jsTruthy (some s) = some s := by
  simp [jsTruthy, h]

theorem subscribeToRoom_contains_self (subs : List String) (roomId : String) :
    (subscribeToRoom subs roomId).contains roomId = true := by
  unfold subscribeToRoom
  by_cases h : subs.contains roomId
  · rw [if_pos h]; exact h
  · rw [if_neg h]
    simp

theorem subscribeToRoom_contains_other (subs : List String) (roomId other : String)
    (hne : other ≠ roomId) (h : other ∉ subs) :
    (subscribeToRoom subs roomId).contains other = false := by
  unfold subscribeToRoom
  by_cases hc : subs.contains roomId
  · rw [if_pos hc]
    simpa using h
  · rw [if_neg hc]
    simp [hne, h]

theorem unsubscribeFromRoom_not_mem (subs : List String) (roomId : String)
    (h : subs.Nodup) : roomId ∉ unsubscribeFromRoom subs roomId := by
  unfold unsubscribeFromRoom
  intro hmem
  exact ((List.Nodup.mem_erase_iff h).mp hmem).1 rfl

namespace MemoryAdapter

theorem getRoom_ensureRoom_self (rooms : Rooms) (r : String) :
    getRoom (ensureRoom rooms r) r = getRoom rooms r := by
  unfold ensureRoom getRoom
  by_cases h : (mget rooms r).isSome
  · rw [if_pos h]
  · rw [if_neg h, mget_mset_self]
    rcases hr : mget rooms r with _ | room
    · rfl
    · rw [hr] at h; simp at h

theorem mget_ensureRoom_self (rooms : Rooms) (r : String) :
    mget (ensureRoom rooms r) r = some (getRoom rooms r) := by
  unfold ensureRoom getRoom
  by_cases h : (mget rooms r).isSome
  · rw [if_pos h]
    obtain ⟨room, hr⟩ := Option.isSome_iff_exists.mp h
    rw [hr]
    rfl
  · rw [if_neg h, mget_mset_self]
    rcases hr : mget rooms r with _ | room
    · rfl
    · rw [hr] at h; simp at h

theorem mget_ensureRoom_ne (rooms : Rooms) (r r' : String) (h : r' ≠ r) :
    mget (ensureRoom rooms r) r' = mget rooms r' := by
  unfold ensureRoom
  by_cases hs : (mget rooms r).isSome
  · rw [if_pos hs]
  · rw [if_neg hs, mget_mset_ne _ _ _ _ h]

theorem mget_joinRoom_self (rooms : Rooms) (r u : String) (md : Option String) :
    mget (joinRoom rooms r u md) r =
      some (if (mget (getRoom rooms r) u).isSome then getRoom rooms r
            else mset (getRoom rooms r) u ⟨u, r, none, false, md⟩) := by
  unfold joinRoom
  rw [getRoom_ensureRoom_self]
  by_cases h : (mget (getRoom rooms r) u).isSome
  · rw [if_pos h, if_pos h, mget_ensureRoom_self]
  · rw [if_neg h, if_neg h, mget_mset_self]

theorem getRoom_joinRoom_self (rooms : Rooms) (r u : String) (md : Option String) :
    getRoom (joinRoom rooms r u md) r =
      if (mget (getRoom rooms r) u).isSome then getRoom rooms r
      else mset (getRoom rooms r) u ⟨u, r, none, false, md⟩ := by
  rw [show getRoom (joinRoom rooms r u md) r = (mget (joinRoom rooms r u md) r).getD [] from rfl]
  rw [mget_joinRoom_self, Option.getD_some]

theorem lookupUser_joinRoom_isSome (rooms : Rooms) (r u : String) (md : Option String) :
    (lookupUser (joinRoom rooms r u md) r u).isSome = true := by
  rw [show lookupUser (joinRoom rooms r u md) r u
        = mget (getRoom (joinRoom rooms r u md) r) u from rfl]
  rw [getRoom_joinRoom_self]
  by_cases h : (mget (getRoom rooms r) u).isSome
  · rw [if_pos h]
    exact h
  · rw [if_neg h, mget_mset_self]
    rfl

theorem joinRoom_mget_ne (rooms : Rooms) (r u : String) (md : Option String)
    (r' : String) (hne : r' ≠ r) :
    mget (joinRoom rooms r u md) r' = mget rooms r' := by
  unfold joinRoom
  by_cases h : (mget (getRoom (ensureRoom rooms r) r) u).isSome
  · rw [if_pos h, mget_ensureRoom_ne _ _ _ hne]
  · rw [if_neg h, mget_mset_ne _ _ _ _ hne, mget_ensureRoom_ne _ _ _ hne]

theorem joinRoom_eq (rooms : Rooms) (r u : String) (md : Option String) :
    joinRoom rooms r u md =
      if (mget (getRoom (ensureRoom rooms r) r) u).isSome then ensureRoom rooms r
      else
        mset (ensureRoom rooms r) r
          (mset (getRoom (ensureRoom rooms r) r) u ⟨u, r, none, false, md⟩) := rfl

theorem joinRoom_idem (rooms : Rooms) (r u : String) (md : Option String) :
    joinRoom (joinRoom rooms r u md) r u md = joinRoom rooms r u md := by
  have hcond : (mget (getRoom (joinRoom rooms r u md) r) u).isSome = true :=
    lookupUser_joinRoom_isSome rooms r u md
  have hens : ensureRoom (joinRoom rooms r u md) r = joinRoom rooms r u md := by
    unfold ensureRoom
    rw [if_pos (by rw [mget_joinRoom_self]; rfl)]
  rw [joinRoom_eq (joinRoom rooms r u md) r u md, hens, if_pos hcond]

theorem lookupUser_joinRoom_absent (rooms : Rooms) (r u : String) (md : Option String)
    (h : lookupUser rooms r u = none) :
    lookupUser (joinRoom rooms r u md) r u = some ⟨u, r, none, false, md⟩ := by
  have hc : ¬ (mget (getRoom rooms r) u).isSome = true := by
    rw [show lookupUser rooms r u = mget (getRoom rooms r) u from rfl] at h
    rw [h]
    simp
  rw [show lookupUser (joinRoom rooms r u md) r u
        = mget (getRoom (joinRoom rooms r u md) r) u from rfl]
  rw [getRoom_joinRoom_self, if_neg hc, mget_mset_self]

theorem joinRoom_present_noop (rooms : Rooms) (r u : String) (md : Option String)
    (h : lookupUser rooms r u ≠ none) :
    joinRoom rooms r u md = rooms := by
  have hc : (mget (getRoom rooms r) u).isSome = true := by
    rw [show lookupUser rooms r u = mget (getRoom rooms r) u from rfl] at h
    exact Option.isSome_iff_ne_none.mpr h
  have hr : (mget rooms r).isSome = true := by
    rcases hrr : mget rooms r with _ | room
    · exfalso
      apply h
      rw [show lookupUser rooms r u = mget ((mget rooms r).getD []) u from rfl, hrr]
      rfl
    · rfl
  have hens : ensureRoom rooms r = rooms := by
    unfold ensureRoom
    rw [if_pos hr]
  unfold joinRoom
  rw [hens, if_pos hc]

theorem lookupUser_joinRoom_other (rooms : Rooms) (r u : String) (md : Option String)
    (r' u' : String) (hu : u' ≠ u) :
    lookupUser (joinRoom rooms r u md) r' u' = lookupUser rooms r' u' := by
  by_cases hr : r' = r
  · subst hr
    rw [show lookupUser (joinRoom rooms r' u md) r' u'
          = mget (getRoom (joinRoom rooms r' u md) r') u' from rfl]
    rw [getRoom_joinRoom_self]
    by_cases h : (mget (getRoom rooms r') u).isSome
    · rw [if_pos h]
      rfl
    · rw [if_neg h, mget_mset_ne _ _ _ _ hu]
      rfl
  · rw [show lookupUser (joinRoom rooms r u md) r' u'
          = mget ((mget (joinRoom rooms r u md) r').getD []) u' from rfl]
    rw [joinRoom_mget_ne _ _ _ _ _ hr]
    rfl

theorem leaveRoom_eq_of_mget (rooms : Rooms) (r u : String) (room : List (String × User))
    (hr : mget rooms r = some room) :
    leaveRoom rooms r u =
      if (mdel room u).isEmpty then mdel rooms r else mset rooms r (mdel room u) := by
  unfold leaveRoom
  rw [hr]

theorem leaveRoom_no_entry (rooms : Rooms) (r u : String)
    (hrooms : keysNodup rooms) (hroom : keysNodup (getRoom rooms r)) :
    ∀ p ∈ getRoom (leaveRoom rooms r u) r, p.1 ≠ u := by
  rcases hr : mget rooms r with _ | room
  · rw [show leaveRoom rooms r u = rooms from by unfold leaveRoom; rw [hr]]
    rw [show getRoom rooms r = (mget rooms r).getD [] from rfl, hr]
    intro p hp
    simp at hp
  · have hroom' : keysNodup room := by
      rw [show getRoom rooms r = (mget rooms r).getD [] from rfl, hr] at hroom
      exact hroom
    rw [leaveRoom_eq_of_mget rooms r u room hr]
    by_cases he : (mdel room u).isEmpty
    · rw [if_pos he]
      rw [show getRoom (mdel rooms r) r = (mget (mdel rooms r) r).getD [] from rfl]
      rw [mget_mdel_self rooms r hrooms]
      intro p hp
      simp at hp
    · rw [if_neg he]
      rw [show getRoom (mset rooms r (mdel room u)) r
            = (mget (mset rooms r (mdel room u)) r).getD [] from rfl]
      rw [mget_mset_self, Option.getD_some]
      exact mdel_keys_ne room u hroom'

theorem leaveRoom_mget_ne (rooms : Rooms) (r u : String) (r' : String) (hne : r' ≠ r) :
    mget (leaveRoom rooms r u) r' = mget rooms r' := by
  rcases hr : mget rooms r with _ | room
  · rw [show leaveRoom rooms r u = rooms from by unfold leaveRoom; rw [hr]]
  · rw [leaveRoom_eq_of_mget rooms r u room hr]
    by_cases he : (mdel room u).isEmpty
    · rw [if_pos he, mget_mdel_ne _ _ _ hne]
    · rw [if_neg he, mget_mset_ne _ _ _ _ hne]

end MemoryAdapter

namespace RedisAdapter

theorem saddMember_contains (l : List String) (x : String) :
    (saddMember l x).contains x = true := by
  unfold saddMember
  by_cases h : l.contains x
  · rw [if_pos h]
    exact h
  · rw [if_neg h]
    simp

theorem saddMember_idem (l : List String) (x : String) :
    saddMember (saddMember l x) x = saddMember l x := by
  rw [show saddMember (saddMember l x) x
        = if (saddMember l x).contains x then saddMember l x
          else saddMember l x ++ [x] from rfl]
  rw [if_pos (saddMember_contains l x)]

theorem joinRoom_users (s : RState) (r u : String) (md : Option String) :
    (joinRoom s r u md).users
      = mset s.users r (mset ((mget s.users r).getD []) u ⟨u, r, none, false, md⟩) := rfl

theorem joinRoom_members (s : RState) (r u : String) (md : Option String) :
    (joinRoom s r u md).members
      = mset s.members r (saddMember ((mget s.members r).getD []) u) := rfl

theorem lookupUser_joinRoom (s : RState) (r u : String) (md : Option String) :
    lookupUser (joinRoom s r u md) r u = some ⟨u, r, none, false, md⟩ := by
  rw [show lookupUser (joinRoom s r u md) r u
        = mget ((mget (joinRoom s r u md).users r).getD []) u from rfl]
  rw [joinRoom_users, mget_mset_self, Option.getD_some, mget_mset_self]

theorem joinRoom_twice (s : RState) (r u : String) (md : Option String) :
    joinRoom (joinRoom s r u md) r u md = joinRoom s r u md := by
  have husers : (joinRoom (joinRoom s r u md) r u md).users = (joinRoom s r u md).users := by
    rw [joinRoom_users (joinRoom s r u md), joinRoom_users s, mget_mset_self, Option.getD_some,
      mset_mset_self, mset_mset_self]
  have hmembers : (joinRoom (joinRoom s r u md) r u md).members = (joinRoom s r u md).members := by
    rw [joinRoom_members (joinRoom s r u md), joinRoom_members s, mget_mset_self,
      Option.getD_some, saddMember_idem, mset_mset_self]
  exact RState.ext husers hmembers

end RedisAdapter

/-- The member entries of one subscriber fan-out: a connection entry whose
binding targets the room, is not the excluded identity, and whose socket is
open receives exactly the stripped payload. -/
theorem subscriberCallback_mem (conns : List (Nat × Conn)) (roomId : String)
    (tm : TaggedMessage) (c : Nat × Conn)
    (hc : c ∈ conns) (hroom : c.2.roomId = roomId)
    (hopen : c.2.isOpen = true)
    (hexcl : (match tm.excludeUserId with
              | some e => c.2.userId != e
              | none => true) = true) :
    (c.1, tm.msg) ∈ subscriberCallback conns roomId tm := by
  unfold subscriberCallback
  apply List.mem_map_of_mem
  apply List.mem_filter.mpr
  refine ⟨List.mem_filter.mpr ⟨hc, ?_⟩, ?_⟩
  · simp [hroom]
  · rw [Bool.and_eq_true]
    exact ⟨hexcl, hopen⟩

/-- Every fan-out delivery originates from a connection entry that passed
both filters. -/
theorem subscriberCallback_sound (conns : List (Nat × Conn)) (roomId : String)
    (tm : TaggedMessage) (p : Nat × ServerMessage)
    (hp : p ∈ subscriberCallback conns roomId tm) :
    p.2 = tm.msg ∧ ∃ c ∈ conns, c.1 = p.1 ∧ c.2.roomId = roomId ∧ c.2.isOpen = true ∧
      (match tm.excludeUserId with
       | some e => c.2.userId != e
       | none => true) = true := by
  unfold subscriberCallback at hp
  obtain ⟨c, hcmem, hceq⟩ := List.mem_map.mp hp
  obtain ⟨hcf1, hcond2⟩ := List.mem_filter.mp hcmem
  obtain ⟨hcmem0, hcond1⟩ := List.mem_filter.mp hcf1
  rw [Bool.and_eq_true] at hcond2
  constructor
  · rw [← hceq]
  · refine ⟨c, hcmem0, ?_, ?_, hcond2.2, hcond2.1⟩
    · rw [← hceq]
    · simpa using hcond1

/-!
Claim theorems.
-/

/-- C1: the claim states that a room has a live subscriber registered with
the backend store iff at least one local connection is bound to it, and in
particular that after one of two connections in the same room leaves, a
subscriber for the room remains. The code violates this: `unsubscribeFromRoom`
drops the single shared room subscription unconditionally, without reference
counting. After connections 1 and 2 join r1 and connection 2 closes, no
subscriber for r1 remains even though connection 1 is still bound to r1. -/
theorem c1_subscription_dropped_while_bound_connection_remains :
    (runServer noAuthConfig initialState twoJoinOneCloseTrace).subs = []
    ∧ mget (runServer noAuthConfig initialState twoJoinOneCloseTrace).conns 1
        = some ⟨"alice", "r1", none, true⟩ := by
  constructor
  · rfl
  · rfl

/-- C2 counterexample: the claim states that a room switch broadcasts
presence to the old room's remaining members and separately to the new
room. In the code the switch branch performs no broadcast at all for the
old room: with connections 1 (alice) and 2 (bob) bound to r1, bob's switch
to r2 hands the adapter exactly one broadcast, for r2, and none for r1,
even though alice remains in r1. -/
theorem c2_room_switch_cx :
    ((serverStep noAuthConfig twoInRoomState 2 (.join (some "r2") none none "x")).broadcasts.map
      Prod.fst) = ["r2"]
    ∧ mget twoInRoomState.conns 1 = some ⟨"alice", "r1", none, true⟩ := by
  constructor
  · rfl
  · rfl

/-- C4: the claim (and the spec) require that a throwing subscriber
callback must not prevent delivery to the remaining callbacks of the room.
`MemoryAdapter.broadcast` iterates with a plain `callbacks.forEach` and no
try/catch, so an exception thrown by the first of two callbacks aborts the
loop: only 1 of the 2 registered callbacks is invoked. -/
theorem c4_broadcast_throwing_callback_aborts_delivery :
    MemoryAdapter.broadcastRun
        [fun _ => Except.error "boom", fun _ => Except.ok ()]
        ⟨ServerMessage.ping, none⟩
      = (1, some "boom")
    ∧ ([fun _ => Except.error "boom", fun _ => (Except.ok () : Except String Unit)] :
        List (TaggedMessage → Except String Unit)).length = 2 := by
  constructor
  · rfl
  · rfl

/-- C6 counterexample: the claim states that for every prior store state
joinRoom leaves a User with null cursor and typing off in the membership.
For the memory adapter joinRoom is insert-if-absent: re-joining a user
whose cursor is set and who is typing leaves the old entry untouched, so
after the call the user's cursor is still non-null and typing is still on. -/
theorem c6_joinRoom_cx :
    MemoryAdapter.joinRoom activeUserRooms "r" "u" none = activeUserRooms
    ∧ MemoryAdapter.lookupUser activeUserRooms "r" "u"
        = some ⟨"u", "r", some ⟨1, 1⟩, true, none⟩ := by
  constructor
  · rfl
  · rfl

/-- C8 counterexample: the claim states that cursor at positions 1,1 and,
10 ms later, 2,2 with a 50 ms throttle produces exactly one sent message,
carrying 2,2. The code sends the first call immediately (lastCursorUpdate
starts at 0, so a session-start call always satisfies the elapsed check):
the run produces two sent messages, and the first carries position 1,1. -/
theorem c8_cursor_throttle_cx :
    (runCursorCalls 50 {} [(1000, ⟨1, 1⟩), (1010, ⟨2, 2⟩)]).sent.length = 2
    ∧ (runCursorCalls 50 {} [(1000, ⟨1, 1⟩), (1010, ⟨2, 2⟩)]).sent.head?
        = some (1000, ⟨1, 1⟩) := by
  constructor
  · rfl
  · rfl

/-- C8 amended: the two calls produce exactly two sent cursor messages: the
first position is sent immediately at the first call, and the freshest
position 2,2 is flushed exactly 50 ms after the first send, no earlier
than 50 ms after the first call. -/
theorem c8_cursor_throttle_amended :
    (runCursorCalls 50 {} [(1000, ⟨1, 1⟩), (1010, ⟨2, 2⟩)]).sent
      = [(1000, ⟨1, 1⟩), (1050, ⟨2, 2⟩)] := by
  rfl

/-- C9 counterexample: the claim states that a ping is answered with a pong
for every connection, including one that has not yet completed a join. The
not-authenticated guard sits before the ping handler, so a ping on a fresh
unbound socket is answered with the not-authenticated error, not a pong,
and no pong is sent. -/
theorem c9_unauthenticated_ping_cx :
    serverStep noAuthConfig initialState 1 .ping
      = ⟨initialState, [(1, .error "Not authenticated. Send join message first.")], []⟩ := by
  rfl

/-- The memory store's updateUser on an absent room or absent user returns
the store unchanged. -/
theorem memory_updateUser_absent (rooms : MemoryAdapter.Rooms) (r u : String)
    (upd : UserUpdate) (h : MemoryAdapter.lookupUser rooms r u = none) :
    MemoryAdapter.updateUser rooms r u upd = rooms := by
  rcases hr : mget rooms r with _ | room
  · unfold MemoryAdapter.updateUser
    rw [hr]
  · have hu : mget room u = none := by
      rw [show MemoryAdapter.lookupUser rooms r u
            = mget ((mget rooms r).getD []) u from rfl, hr] at h
      exact h
    rw [show MemoryAdapter.updateUser rooms r u upd
          = (match mget room u with
             | none => rooms
             | some u0 =>
               mset rooms r (mset room u (applyUpdate u0 upd))) from by
        unfold MemoryAdapter.updateUser
        rw [hr]]
    rw [hu]

/-- The redis store's updateUser on an absent hash field returns the store
unchanged. -/
theorem redis_updateUser_absent (s : RedisAdapter.RState) (r u : String)
    (upd : UserUpdate) (h : RedisAdapter.lookupUser s r u = none) :
    RedisAdapter.updateUser s r u upd = s := by
  unfold RedisAdapter.updateUser
  rw [show mget ((mget s.users r).getD []) u = RedisAdapter.lookupUser s r u from rfl, h]

/-- C5: updateUser on an absent user is a no-op for both adapters: the
memory store and the redis store are returned unchanged (so no ghost entry
is created, membership size is unchanged and all other state is
unchanged), and the server's cursor handler for a connection whose user is
absent returns the state unchanged with no broadcast and no send. -/
theorem c5_updateUser_absent_noop
    (cfg : ServerConfig) (st : ServerState) (ws : Nat) (conn : Conn)
    (pos : Pos) (upd : UserUpdate) (rs : RedisAdapter.RState)
    (hconn : mget st.conns ws = some conn)
    (hmem : MemoryAdapter.lookupUser st.rooms conn.roomId conn.userId = none)
    (hfind : (MemoryAdapter.getUsers st.rooms conn.roomId).find?
        (fun u => u.id == conn.userId) = none)
    (hred : RedisAdapter.lookupUser rs conn.roomId conn.userId = none) :
    MemoryAdapter.updateUser st.rooms conn.roomId conn.userId upd = st.rooms
    ∧ RedisAdapter.updateUser rs conn.roomId conn.userId upd = rs
    ∧ serverStep cfg st ws (.cursor pos) = ⟨st, [], []⟩ := by
  refine ⟨memory_updateUser_absent _ _ _ _ hmem, redis_updateUser_absent _ _ _ _ hred, ?_⟩
  have h1 : MemoryAdapter.updateUser st.rooms conn.roomId conn.userId
      ⟨some (some pos), none⟩ = st.rooms :=
    memory_updateUser_absent _ _ _ _ hmem
  simp only [serverStep, hconn, handleBound, h1, hfind]

/-- C6 amended: joinRoom is idempotent for both adapters, and for the
memory adapter it is an insert-if-absent rather than an unconditional
upsert: when the user is absent a fresh User with null cursor, typing off
and the given metadata is inserted; when the user is already present the
memory store is returned entirely unchanged. The redis adapter's joinRoom
always rewrites the fresh User. -/
theorem c6_joinRoom_amended (rooms : MemoryAdapter.Rooms) (r u : String)
    (md : Option String) (rs : RedisAdapter.RState) :
    MemoryAdapter.joinRoom (MemoryAdapter.joinRoom rooms r u md) r u md
      = MemoryAdapter.joinRoom rooms r u md
    ∧ (MemoryAdapter.lookupUser rooms r u = none →
        MemoryAdapter.lookupUser (MemoryAdapter.joinRoom rooms r u md) r u
          = some ⟨u, r, none, false, md⟩)
    ∧ (MemoryAdapter.lookupUser rooms r u ≠ none →
        MemoryAdapter.joinRoom rooms r u md = rooms)
    ∧ RedisAdapter.lookupUser (RedisAdapter.joinRoom rs r u md) r u
        = some ⟨u, r, none, false, md⟩
    ∧ RedisAdapter.joinRoom (RedisAdapter.joinRoom rs r u md) r u md
        = RedisAdapter.joinRoom rs r u md :=
  ⟨MemoryAdapter.joinRoom_idem rooms r u md,
   MemoryAdapter.lookupUser_joinRoom_absent rooms r u md,
   MemoryAdapter.joinRoom_present_noop rooms r u md,
   RedisAdapter.lookupUser_joinRoom rs r u md,
   RedisAdapter.joinRoom_twice rs r u md⟩

/-- Witness for C6: instantiating the amended theorem at the empty store
(user absent) and at a store whose user is present. -/
theorem c6_joinRoom_amended_witness :
    (MemoryAdapter.lookupUser ([] : MemoryAdapter.Rooms) "r" "u" = none)
    ∧ MemoryAdapter.lookupUser (MemoryAdapter.joinRoom [] "r" "u" none) "r" "u"
        = some ⟨"u", "r", none, false, none⟩
    ∧ MemoryAdapter.joinRoom activeUserRooms "r" "u" none = activeUserRooms :=
  ⟨rfl,
   (c6_joinRoom_amended [] "r" "u" none ⟨[], []⟩).2.1 rfl,
   (c6_joinRoom_amended activeUserRooms "r" "u" none ⟨[], []⟩).2.2.1 (by decide)⟩

/-- C7: for every attempt count below the retry limit, a non-caller
initiated close schedules a reconnect whose delay is the capped exponential
of the current counter and increments the counter afterwards; with the
default configuration the six successive delays are 1000, 2000, 4000,
8000, 16000 and 30000 ms. -/
theorem c7_reconnect_backoff (a : Nat) (ha : a < defaultReconnect.maxRetries) :
    onCloseReconnect defaultReconnect true a
      = some (min (defaultReconnect.initialDelay * defaultReconnect.backoffFactor ^ a)
          defaultReconnect.maxDelay, a + 1)
    ∧ closeDelays defaultReconnect 6 0 = [1000, 2000, 4000, 8000, 16000, 30000] := by
  constructor
  · unfold onCloseReconnect
    rw [if_pos ⟨rfl, rfl, ha⟩]
    rfl
  · rfl

/-- Witness for C7 at attempt counter 3. -/
theorem c7_reconnect_backoff_witness :
    3 < defaultReconnect.maxRetries
    ∧ (onCloseReconnect defaultReconnect true 3
        = some (min (defaultReconnect.initialDelay * defaultReconnect.backoffFactor ^ 3)
            defaultReconnect.maxDelay, 3 + 1)
      ∧ closeDelays defaultReconnect 6 0 = [1000, 2000, 4000, 8000, 16000, 30000]) :=
  ⟨by decide, c7_reconnect_backoff 3 (by decide)⟩

/-- C9 amended: a ping from a bound connection is answered with a single
pong directly to the sender, while a ping from a connection that has not
yet completed a join is answered with the not-authenticated error instead
of a pong; in both cases no broadcast is handed to the adapter and the
server state (and so the binding) is unchanged. -/
theorem c9_ping_amended (cfg : ServerConfig) (st : ServerState) (ws : Nat) :
    (serverStep cfg st ws .ping).state = st
    ∧ (serverStep cfg st ws .ping).broadcasts = []
    ∧ (serverStep cfg st ws .ping).sends =
        (match mget st.conns ws with
         | some _ => [(ws, ServerMessage.pong)]
         | none => [(ws, ServerMessage.error "Not authenticated. Send join message first.")]) := by
  rcases h : mget st.conns ws with _ | conn <;>
    simp [serverStep, handleBound, h]

/-- C3: exclusion semantics of a broadcast tagged with an excluded
identity, on a room with a registered subscriber callback and a
well-formed connection map: every open connection bound to the room whose
identity differs from the excluded one receives the message, no connection
whose identity matches receives anything, and every delivered payload is
exactly the untagged message, so the stripped exclusion marker never
appears in a received payload. -/
theorem c3_exclusion_semantics (st : ServerState) (roomId : String)
    (message : ServerMessage) (excluded : String)
    (hnd : keysNodup st.conns)
    (hsub : st.subs.contains roomId = true) :
    (∀ c ∈ st.conns, c.2.roomId = roomId → c.2.isOpen = true → c.2.userId ≠ excluded →
        (c.1, message) ∈ (broadcastToRoom st roomId message (some excluded)).2)
    ∧ (∀ c ∈ st.conns, c.2.userId = excluded →
        ∀ m, (c.1, m) ∉ (broadcastToRoom st roomId message (some excluded)).2)
    ∧ (∀ p ∈ (broadcastToRoom st roomId message (some excluded)).2, p.2 = message) := by
  have hsends : (broadcastToRoom st roomId message (some excluded)).2
      = subscriberCallback st.conns roomId ⟨message, some excluded⟩ := by
    simp only [broadcastToRoom, hsub, if_true]
  refine ⟨?_, ?_, ?_⟩
  · intro c hc h1 h2 h3
    rw [hsends]
    exact subscriberCallback_mem st.conns roomId ⟨message, some excluded⟩ c hc h1 h2
      (by
        show (c.2.userId != excluded) = true
        simp only [bne_iff_ne]
        exact h3)
  · intro c hc hceq m hm
    rw [hsends] at hm
    obtain ⟨hmsg, c', hmem', hfst, hroom', hopen', hexcl'⟩ :=
      subscriberCallback_sound st.conns roomId ⟨message, some excluded⟩ (c.1, m) hm
    have hce : c' = c := entry_eq_of_keysNodup hnd hmem' hc hfst
    have hne : c'.2.userId ≠ excluded := by
      have hb : (c'.2.userId != excluded) = true := hexcl'
      simpa only [bne_iff_ne] using hb
    rw [hce] at hne
    exact hne hceq
  · intro p hp
    rw [hsends] at hp
    exact (subscriberCallback_sound st.conns roomId ⟨message, some excluded⟩ p hp).1

/-- Witness for C3 at a room with one other open connection and one
connection bound to the excluded identity. -/
theorem c3_exclusion_semantics_witness :
    keysNodup fanOutState.conns
    ∧ fanOutState.subs.contains "r" = true
    ∧ (1, ServerMessage.ping) ∈ (broadcastToRoom fanOutState "r" .ping (some "e")).2
    ∧ (2, ServerMessage.ping) ∉ (broadcastToRoom fanOutState "r" .ping (some "e")).2 := by
  refine ⟨by decide, by rfl, ?_, ?_⟩
  · exact (c3_exclusion_semantics fanOutState "r" .ping "e" (by decide) rfl).1
      (1, ⟨"u1", "r", none, true⟩) (by decide) rfl rfl (by decide)
  · exact (c3_exclusion_semantics fanOutState "r" .ping "e" (by decide) rfl).2.1
      (2, ⟨"e", "r", none, true⟩) (by decide) rfl ServerMessage.ping

/-- C2 amended: a join carrying a different, non-empty roomId while bound
performs leaveRoom and unsubscribe for the old room, then joinRoom and
subscribe for the new room, and hands the adapter exactly one presence
broadcast, for the new room, whose recipients include the switching
connection; no broadcast of any kind is handed over for the old room. The
connection ends bound to the new room, the switching identity is removed
from the old room's membership and present in the new room's membership. -/
theorem c2_room_switch_amended
    (cfg : ServerConfig) (st : ServerState) (ws : Nat) (conn : Conn)
    (newRoomId : String) (tok md : Option String) (freshId : String)
    (hconn : mget st.conns ws = some conn)
    (hopen : conn.isOpen = true)
    (hne : newRoomId ≠ conn.roomId) (hnz : newRoomId ≠ "")
    (hrooms : keysNodup st.rooms)
    (hroom : keysNodup (MemoryAdapter.getRoom st.rooms conn.roomId))
    (hsubs : st.subs.Nodup) :
    mget (serverStep cfg st ws (.join (some newRoomId) tok md freshId)).state.conns ws
      = some { conn with roomId := newRoomId }
    ∧ (∀ p ∈ MemoryAdapter.getRoom
          (serverStep cfg st ws (.join (some newRoomId) tok md freshId)).state.rooms
          conn.roomId, p.1 ≠ conn.userId)
    ∧ (MemoryAdapter.lookupUser
          (serverStep cfg st ws (.join (some newRoomId) tok md freshId)).state.rooms
          newRoomId conn.userId).isSome = true
    ∧ (serverStep cfg st ws (.join (some newRoomId) tok md freshId)).state.subs.contains
        conn.roomId = false
    ∧ (serverStep cfg st ws (.join (some newRoomId) tok md freshId)).state.subs.contains
        newRoomId = true
    ∧ (serverStep cfg st ws (.join (some newRoomId) tok md freshId)).broadcasts
        = [(newRoomId,
            ⟨.presence (MemoryAdapter.getUsers
                (serverStep cfg st ws (.join (some newRoomId) tok md freshId)).state.rooms
                newRoomId), none⟩)]
    ∧ (ws, ServerMessage.presence (MemoryAdapter.getUsers
          (serverStep cfg st ws (.join (some newRoomId) tok md freshId)).state.rooms newRoomId))
        ∈ (serverStep cfg st ws (.join (some newRoomId) tok md freshId)).sends := by
  have hAB : conn.roomId ≠ newRoomId := fun h => hne h.symm
  have hstep : serverStep cfg st ws (.join (some newRoomId) tok md freshId)
      = handleRoomSwitch st ws conn newRoomId := by
    simp only [serverStep, hconn, jsTruthy_some_ne newRoomId hnz]
    rw [if_pos hne]
  have hstate : (handleRoomSwitch st ws conn newRoomId).state
      = ⟨MemoryAdapter.joinRoom (MemoryAdapter.leaveRoom st.rooms conn.roomId conn.userId)
            newRoomId conn.userId conn.metadata,
         subscribeToRoom (unsubscribeFromRoom st.subs conn.roomId) newRoomId,
         mset st.conns ws { conn with roomId := newRoomId }⟩ := rfl
  refine ⟨?_, ?_, ?_, ?_, ?_, ?_, ?_⟩
  · rw [hstep, hstate]
    exact mget_mset_self st.conns ws _
  · intro p hp
    rw [hstep, hstate] at hp
    have hgr : MemoryAdapter.getRoom
        (MemoryAdapter.joinRoom (MemoryAdapter.leaveRoom st.rooms conn.roomId conn.userId)
          newRoomId conn.userId conn.metadata) conn.roomId
        = MemoryAdapter.getRoom (MemoryAdapter.leaveRoom st.rooms conn.roomId conn.userId)
            conn.roomId := by
      unfold MemoryAdapter.getRoom
      rw [MemoryAdapter.joinRoom_mget_ne _ _ _ _ _ hAB]
    rw [show (⟨MemoryAdapter.joinRoom
          (MemoryAdapter.leaveRoom st.rooms conn.roomId conn.userId) newRoomId conn.userId
          conn.metadata,
        subscribeToRoom (unsubscribeFromRoom st.subs conn.roomId) newRoomId,
        mset st.conns ws { conn with roomId := newRoomId }⟩ : ServerState).rooms
        = MemoryAdapter.joinRoom (MemoryAdapter.leaveRoom st.rooms conn.roomId conn.userId)
            newRoomId conn.userId conn.metadata from rfl, hgr] at hp
    exact MemoryAdapter.leaveRoom_no_entry st.rooms conn.roomId conn.userId hrooms hroom p hp
  · rw [hstep, hstate]
    exact MemoryAdapter.lookupUser_joinRoom_isSome _ _ _ _
  · rw [hstep, hstate]
    exact subscribeToRoom_contains_other _ _ _ hAB
      (unsubscribeFromRoom_not_mem st.subs conn.roomId hsubs)
  · rw [hstep, hstate]
    exact subscribeToRoom_contains_self _ _
  · rw [hstep, hstate]
    rfl
  · have hB : (subscribeToRoom (unsubscribeFromRoom st.subs conn.roomId) newRoomId).contains
        newRoomId = true := subscribeToRoom_contains_self _ _
    have hsendseq : (handleRoomSwitch st ws conn newRoomId).sends
        = (if (subscribeToRoom (unsubscribeFromRoom st.subs conn.roomId) newRoomId).contains
              newRoomId = true
           then subscriberCallback (mset st.conns ws { conn with roomId := newRoomId }) newRoomId
              ⟨.presence (MemoryAdapter.getUsers
                 (MemoryAdapter.joinRoom
                   (MemoryAdapter.leaveRoom st.rooms conn.roomId conn.userId)
                   newRoomId conn.userId conn.metadata) newRoomId), none⟩
           else []) := rfl
    rw [hstep, hstate, hsendseq, if_pos hB]
    exact subscriberCallback_mem _ _ _ (ws, { conn with roomId := newRoomId })
      (mem_mset_self st.conns ws _) rfl hopen rfl

/-- Witness for C2: bob switches from r1 to r2 while alice stays in r1; the
subscription for r1 is gone and exactly one broadcast, for r2, happened. -/
theorem c2_room_switch_amended_witness :
    (mget twoInRoomState.conns 2 = some ⟨"bob", "r1", none, true⟩
      ∧ ("r2" : String) ≠ "r1" ∧ ("r2" : String) ≠ ""
      ∧ keysNodup twoInRoomState.rooms
      ∧ keysNodup (MemoryAdapter.getRoom twoInRoomState.rooms "r1")
      ∧ twoInRoomState.subs.Nodup)
    ∧ (serverStep noAuthConfig twoInRoomState 2
        (.join (some "r2") none none "x")).state.subs.contains "r1" = false := by
  refine ⟨⟨rfl, by decide, by decide, by decide, by decide, by decide⟩, ?_⟩
  exact (c2_room_switch_amended noAuthConfig twoInRoomState 2 ⟨"bob", "r1", none, true⟩
    "r2" none none "x" rfl rfl (by decide) (by decide) (by decide) (by decide)
    (by decide)).2.2.2.1

/-- C10 counterexample: the claim states that a repeated join that omits
roomId rebinds the connection with a fresh identity added to the
connection's current room. With the connection bound to r1, a join without
roomId rebinds it to the room named default instead: the fresh identity is
absent from r1's membership and lives in default's membership. -/
theorem c10_rejoin_cx :
    mget (serverStep noAuthConfig oneInRoomState 1 (.join none none none "b")).state.conns 1
      = some ⟨"b", "default", none, true⟩
    ∧ MemoryAdapter.lookupUser
        (serverStep noAuthConfig oneInRoomState 1 (.join none none none "b")).state.rooms
        "r1" "b" = none
    ∧ MemoryAdapter.lookupUser
        (serverStep noAuthConfig oneInRoomState 1 (.join none none none "b")).state.rooms
        "default" "b" = some ⟨"b", "default", none, false, none⟩ :=
  ⟨rfl, rfl, rfl⟩

/-- C10 amended: on a server without an auth callback, a second join from a
bound connection whose roomId is absent or equal to the current room mints
the supplied fresh identity and rebinds the connection to the join's
target room (the message's roomId, or the room named default when the
roomId is omitted); the fresh identity has a membership entry in the
target room, and the previously bound identity's entry in its room is left
exactly as it was (in particular it is not removed). -/
theorem c10_rejoin_amended (cfg : ServerConfig) (st : ServerState) (ws : Nat)
    (conn : Conn) (roomIdOpt md : Option String) (freshId : String)
    (hauth : cfg.auth = none)
    (hconn : mget st.conns ws = some conn)
    (hsame : jsTruthy roomIdOpt = none ∨ jsTruthy roomIdOpt = some conn.roomId)
    (hfresh : freshId ≠ conn.userId) :
    mget (serverStep cfg st ws (.join roomIdOpt none md freshId)).state.conns ws
      = some ⟨freshId, (jsTruthy roomIdOpt).getD "default", md, true⟩
    ∧ (MemoryAdapter.lookupUser
        (serverStep cfg st ws (.join roomIdOpt none md freshId)).state.rooms
        ((jsTruthy roomIdOpt).getD "default") freshId).isSome = true
    ∧ MemoryAdapter.lookupUser
        (serverStep cfg st ws (.join roomIdOpt none md freshId)).state.rooms
        conn.roomId conn.userId
      = MemoryAdapter.lookupUser st.rooms conn.roomId conn.userId := by
  have hstep : serverStep cfg st ws (.join roomIdOpt none md freshId)
      = joinAs st ws ((jsTruthy roomIdOpt).getD "default") freshId md := by
    rcases hsame with hs | hs
    · simp only [serverStep, hconn, hs, handleInitialJoin, hauth]
    · simp only [serverStep, hconn, hs, handleInitialJoin, hauth]
      rw [if_neg (fun h : conn.roomId ≠ conn.roomId => h rfl)]
  have hstate : (joinAs st ws ((jsTruthy roomIdOpt).getD "default") freshId md).state
      = ⟨MemoryAdapter.joinRoom st.rooms ((jsTruthy roomIdOpt).getD "default") freshId md,
         subscribeToRoom st.subs ((jsTruthy roomIdOpt).getD "default"),
         mset st.conns ws ⟨freshId, (jsTruthy roomIdOpt).getD "default", md, true⟩⟩ := rfl
  refine ⟨?_, ?_, ?_⟩
  · rw [hstep, hstate]
    exact mget_mset_self st.conns ws _
  · rw [hstep, hstate]
    exact MemoryAdapter.lookupUser_joinRoom_isSome _ _ _ _
  · rw [hstep, hstate]
    exact MemoryAdapter.lookupUser_joinRoom_other st.rooms _ freshId md conn.roomId conn.userId
      (Ne.symm hfresh)

/-- Witness for C10: a bound connection re-joins its own room r1 with a
minted identity b; the connection is rebound to b in r1 and the old entry
for a is untouched. -/
theorem c10_rejoin_amended_witness :
    (noAuthConfig.auth = none
      ∧ mget oneInRoomState.conns 1 = some ⟨"a", "r1", none, true⟩
      ∧ jsTruthy (some "r1") = some "r1"
      ∧ ("b" : String) ≠ "a")
    ∧ mget (serverStep noAuthConfig oneInRoomState 1
        (.join (some "r1") none none "b")).state.conns 1
      = some ⟨"b", "r1", none, true⟩ := by
  refine ⟨⟨rfl, rfl, rfl, by decide⟩, ?_⟩
  exact (c10_rejoin_amended noAuthConfig oneInRoomState 1 ⟨"a", "r1", none, true⟩
    (some "r1") none "b" rfl rfl (Or.inr rfl) (by decide)).1

/-- Witness for C5: a connection bound to room r whose user u has no store
entry; the cursor handler leaves everything unchanged and sends nothing. -/
theorem c5_updateUser_absent_noop_witness :
    (mget absentUserState.conns 1 = some ⟨"u", "r", none, true⟩
      ∧ MemoryAdapter.lookupUser absentUserState.rooms "r" "u" = none
      ∧ (MemoryAdapter.getUsers absentUserState.rooms "r").find?
          (fun u => u.id == "u") = none
      ∧ RedisAdapter.lookupUser ⟨[], []⟩ "r" "u" = none)
    ∧ (MemoryAdapter.updateUser absentUserState.rooms "r" "u" ⟨some (some ⟨3, 4⟩), none⟩
        = absentUserState.rooms
      ∧ RedisAdapter.updateUser ⟨[], []⟩ "r" "u" ⟨some (some ⟨3, 4⟩), none⟩ = ⟨[], []⟩
      ∧ serverStep noAuthConfig absentUserState 1 (.cursor ⟨3, 4⟩)
          = ⟨absentUserState, [], []⟩) :=
  ⟨⟨rfl, rfl, rfl, rfl⟩,
   c5_updateUser_absent_noop noAuthConfig absentUserState 1 ⟨"u", "r", none, true⟩
     ⟨3, 4⟩ ⟨some (some ⟨3, 4⟩), none⟩ ⟨[], []⟩ rfl rfl rfl rfl⟩
